import Mathlib

/-!
Shallow embedding of the address/transaction reconciliation logic of the
desktop-wallet repository (src/src/contexts/addresses.tsx, which contains a
current and a legacy version of the addresses context provider, plus the
settings helpers).  Pure functions of the source are translated to Lean
functions; the stateful registry (a JS Map held in React state) is modelled
as a lookup function from map-key strings to addresses; effectful operations
(metadata storage, API calls, notifications) are modelled by the lists of
effects they perform, which are fully determined by the inputs because every
API call is attempted regardless of the outcome of previous ones.
-/

namespace DesktopWallet

/-- Modelled from the spec: the network name used to key addresses
("mainnet", "testnet", localhost settings); the source imports `NetworkName`
from a types module that is not part of the sources. The literal renderings
below contain no dash, which matters for the `hash-network` map keys. -/
inductive NetworkName
  | mainnet
  | testnet
  | localhost
  | custom
deriving DecidableEq

/-- The string rendering used when a network name is interpolated into a
template string such as the registry map key. -/
def NetworkName.toStr : NetworkName → String
  | .mainnet => "mainnet"
  | .testnet => "testnet"
  | .localhost => "localhost"
  | .custom => "custom"

/-- Network status values compared against in the source
(`network.status === 'offline' | 'connecting' | 'uninitialized'`), plus the
stable connected state. -/
inductive NetworkStatus
  | online
  | offline
  | connecting
  | uninitialized
deriving DecidableEq

/-- `TransactionType` of a locally synthesized pending transaction
(source: `'consolidation' | 'transfer' | 'sweep'`). -/
inductive TransactionType
  | consolidation
  | transfer
  | sweep
deriving DecidableEq

/-- A pending transaction (source `SimpleTx` / `PendingTx`):
`{txId, fromAddress, toAddress, timestamp, type, network, amount?}` with
`amount?: bigint`.  JS bigints are modelled as `Int`; the optional field as
`Option Int`. -/
structure PendingTx where
  txId : String
  fromAddress : String
  toAddress : String
  timestamp : Nat
  type : TransactionType
  network : NetworkName
  amount : Option Int
deriving DecidableEq

/-- A confirmed transaction from the explorer API.  The registry reads only
its `hash` field (identity matching), so only that field is modelled. -/
structure ConfirmedTx where
  hash : String
deriving DecidableEq

/-- Per-address settings `{isMain, label?, color?}`. -/
structure AddressSettings where
  isMain : Bool
  label : Option String
  color : Option String
deriving DecidableEq

/-- `AddressInfo` details fetched from the API
(`{balance, lockedBalance, txNumber}`; balances are decimal strings). -/
structure AddressInfo where
  balance : String
  lockedBalance : String
  txNumber : Nat
deriving DecidableEq

/-- The transaction bucket of an address:
`{confirmed: Transaction[], pending: PendingTx[], loadedPage: number}`. -/
structure AddressTransactions where
  confirmed : List ConfirmedTx
  pending : List PendingTx
  loadedPage : Nat
deriving DecidableEq

/-- Modelled from the spec: the external SDK constant for the fixed number of
address groups (`TOTAL_NUMBER_OF_GROUPS`); no claim depends on its value. -/
def TOTAL_NUMBER_OF_GROUPS : Nat := 4

/-- Modelled from the spec: the external SDK function `addressToGroup`, "a
group number computed from the hash".  No claim depends on the exact
function, only on its being determined by the hash. -/
def addressToGroup (hash : String) (totalGroups : Nat) : Nat :=
  (hash.foldl (fun acc c => acc + c.toNat) 0) % totalGroups

/-- The `Address` class: identity fields, mutable settings/details, the
transaction bucket, the derived `availableBalance` (a JS bigint, modelled as
`Int`) and the network stamp assigned by `updateAddressesState`. -/
structure Address where
  hash : String
  shortHash : String
  publicKey : String
  privateKey : String
  group : Nat
  index : Nat
  settings : AddressSettings
  details : AddressInfo
  transactions : AddressTransactions
  availableBalance : Int
  lastUsed : Option Nat
  network : Option NetworkName
deriving DecidableEq

/-- The `Address` constructor: computes `shortHash` and `group`, zeroes the
details, transactions and available balance. -/
def Address.make (hash publicKey privateKey : String) (index : Nat)
    (settings : AddressSettings) : Address :=
  { hash := hash
    shortHash := hash.take 10 ++ "..."
    publicKey := publicKey
    privateKey := privateKey
    group := addressToGroup hash TOTAL_NUMBER_OF_GROUPS
    index := index
    settings := settings
    details := { balance := "", lockedBalance := "", txNumber := 0 }
    transactions := { confirmed := [], pending := [], loadedPage := 0 }
    availableBalance := 0
    lastUsed := none
    network := none }

/-- The local binding `newPendingTransactions` of
`Address.updatePendingTransactions`: the pending transactions whose id has no
match in the confirmed list
(`pending.filter(p => !confirmed.find(c => c.hash === p.txId))`). -/
def Address.newPendingTransactions (a : Address) : List PendingTx :=
  a.transactions.pending.filter
    (fun pendingTx =>
      !(a.transactions.confirmed.any (fun confirmedTx => confirmedTx.hash == pendingTx.txId)))

/-- The local binding `totalAmountOfPendingTxs` of
`Address.updatePendingTransactions`: if some remaining pending transaction is
a sweep or consolidation (`pending.find(tx => tx.type === 'sweep' ||
tx.type === 'consolidation')` is truthy) it is the whole available balance,
otherwise the reduce `(acc, tx) => tx.amount ? acc + BigInt(tx.amount) : acc`
over the remaining pending transactions (a JS bigint `0n` is falsy, so a zero
amount is skipped, which adds nothing either way). -/
def pendingDeduction (pending : List PendingTx) (availableBalance : Int) : Int :=
  if (pending.find? (fun tx =>
        decide (tx.type = TransactionType.sweep) || decide (tx.type = TransactionType.consolidation))).isSome then
    availableBalance
  else
    pending.foldl
      (fun acc tx =>
        match tx.amount with
        | some v => if v = 0 then acc else acc + v
        | none => acc)
      0

/-- `Address.updatePendingTransactions`: drop the pending transactions that
now appear in the confirmed list, then reduce the available balance by the
total deduction of the remaining pending transactions. -/
def Address.updatePendingTransactions (a : Address) : Address :=
  let newPending := a.newPendingTransactions
  { a with
    transactions := { a.transactions with pending := newPending }
    availableBalance := a.availableBalance - pendingDeduction newPending a.availableBalance }

/-- The plain sum of the known pending amounts (an absent amount counts 0);
used to state the balance rule. -/
def sumPendingAmounts (pending : List PendingTx) : Int :=
  pending.foldl (fun acc tx => acc + tx.amount.getD 0) 0

/-! ## The registry state: a JS `Map` keyed by `hash-network` strings -/

/-- The addresses registry state.  The source keeps a
`Map<AddressHash, Address>` whose keys are the strings built by
`constructMapKey`; it is modelled as a lookup function from key strings. -/
def AddressesStateMap : Type := String → Option Address

/-- `constructMapKey`: the template string
`` `${addressHash}-${network.name}` ``. -/
def constructMapKey (addressHash : String) (net : NetworkName) : String :=
  addressHash ++ "-" ++ net.toStr

/-- `getAddress`: look the hash up under the current network
(`addressesState.get(constructMapKey(addressHash))`). -/
def getAddress (net : NetworkName) (s : AddressesStateMap) (addressHash : String) :
    Option Address :=
  s (constructMapKey addressHash net)

/-- The assignment `newAddress.network = network.name` performed by
`updateAddressesState` on each address before inserting it. -/
def stampNetwork (a : Address) (net : NetworkName) : Address :=
  { a with network := some net }

/-- One iteration of the `for` loop of `updateAddressesState`:
`newAddressesState.set(constructMapKey(newAddress.hash), newAddress)` after
stamping the network, on the copied map. -/
def setKey (net : NetworkName) (m : AddressesStateMap) (newAddress : Address) :
    AddressesStateMap :=
  fun k => if k = constructMapKey newAddress.hash net then some (stampNetwork newAddress net) else m k

/-- `updateAddressesState`: returns unchanged state on an empty list
(`if (newAddresses.length === 0) return`, no state update at all), otherwise
copies the map and inserts every given address under its key for the current
network, later entries overwriting earlier ones. -/
def updateAddressesState (net : NetworkName) (newAddresses : List Address)
    (s : AddressesStateMap) : AddressesStateMap :=
  if newAddresses.length = 0 then s
  else newAddresses.foldl (setKey net) s

/-! ## Effect models for the fetch / save / initialize operations

Every API call in the source is attempted unconditionally inside a
`try/catch` that only reports errors, so the sequence of calls an operation
performs is fully determined by its inputs; each operation is modelled by
the pair (list of per-address API calls, number of offline notifications
shown by `displayDataFetchingError`). -/

/-- A per-address API call performed through the injected client. -/
inductive ApiCall
  | fetchAddressDetails (hash : String)
  | fetchAddressConfirmedTransactions (hash : String)
  | getUnconfirmedTransactions (hash : String)
  | fetchAddressConfirmedTransactionsNextPage (hash : String)
deriving DecidableEq

/-- Guard used by all data-fetching callbacks:
`!client || network.status === 'offline'`.  The client is modelled by its
presence. -/
def clientUnavailable (clientSet : Bool) (status : NetworkStatus) : Bool :=
  !clientSet || decide (status = NetworkStatus.offline)

/-- `fetchAndStoreAddressesData`: offline branch shows the single offline
notification and returns (after re-storing the passed addresses); otherwise
it calls `fetchAddressDetails` and `fetchAddressConfirmedTransactions` for
each address of the batch (the given ones, or all addresses of the current
network when given none). -/
def fetchAndStoreAddressesDataCalls (clientSet : Bool) (status : NetworkStatus)
    (addresses currentNetworkAddresses : List Address) : List ApiCall × Nat :=
  if clientUnavailable clientSet status then ([], 1)
  else
    let addressesStateToRefresh :=
      if addresses.length > 0 then addresses else currentNetworkAddresses
    ((addressesStateToRefresh.map (fun a =>
        [ApiCall.fetchAddressDetails a.hash,
         ApiCall.fetchAddressConfirmedTransactions a.hash])).flatten, 0)

/-- `fetchPendingTxs`: offline branch shows the single offline notification
and returns; otherwise it queries the unconfirmed transactions of each
address of the batch. -/
def fetchPendingTxsCalls (clientSet : Bool) (status : NetworkStatus)
    (addresses currentNetworkAddresses : List Address) : List ApiCall × Nat :=
  if clientUnavailable clientSet status then ([], 1)
  else
    let addressesToCheck :=
      if addresses.length > 0 then addresses else currentNetworkAddresses
    (addressesToCheck.map (fun a => ApiCall.getUnconfirmedTransactions a.hash), 0)

/-- `fetchAddressTransactionsNextPage`: offline branch is a bare
`if (!client || network.status === 'offline') return` with no notification;
otherwise one next-page call for the given address. -/
def fetchAddressTransactionsNextPageCalls (clientSet : Bool) (status : NetworkStatus)
    (address : Address) : List ApiCall × Nat :=
  if clientUnavailable clientSet status then ([], 0)
  else ([ApiCall.fetchAddressConfirmedTransactionsNextPage address.hash], 0)

/-- JS truthiness of an optional string: `undefined` and the empty string are
falsy. -/
def jsTruthyStr : Option String → Bool
  | none => false
  | some s => !(s == "")

/-- An effect performed by `saveNewAddress` after its mnemonic guard. -/
inductive SaveEffect
  | storeMetadata (index : Nat) (settings : AddressSettings)
  | setAddress (hash : String)
  | fetchAndStoreAddressesData (hashes : List String)
  | fetchPendingTxs (hashes : List String)
deriving DecidableEq

/-- `saveNewAddress` of the current provider.  Its callback parameter
`mnemonic?: string` shadows the provider-state `mnemonic` (the unlocked
wallet secret), so the fallback `const _mnemonic = mnemonic || mnemonic`
reads only the parameter: `contextMnemonic` is never consulted, exactly as in
the source, whose dependency array also omits the state mnemonic.  When the
guard passes it stores the metadata (unless a passphrase is used), upserts
the address and triggers the confirmed-history and pending fetches for it. -/
def saveNewAddress (contextMnemonic : Option String) (isPassphraseUsed : Bool)
    (newAddress : Address) (mnemonic : Option String) : Except String (List SaveEffect) :=
  let _unusedContextSecret := contextMnemonic
  let _mnemonic := if jsTruthyStr mnemonic then mnemonic else mnemonic
  if !(jsTruthyStr _mnemonic) then
    Except.error "Could not save new address, mnemonic not found"
  else
    Except.ok
      ((if !isPassphraseUsed then
          [SaveEffect.storeMetadata newAddress.index newAddress.settings]
        else []) ++
       [SaveEffect.setAddress newAddress.hash,
        SaveEffect.fetchAndStoreAddressesData [newAddress.hash],
        SaveEffect.fetchPendingTxs [newAddress.hash]])

/-- Stored per-address metadata `{index, isMain, label?, color?}` loaded from
the Address Metadata Store. -/
structure AddressMetadata where
  index : Nat
  isMain : Bool
  label : Option String
  color : Option String
deriving DecidableEq

/-- An effect performed by an initialization routine. -/
inductive InitEffect
  | deriveFromIndexes (indexes : List Nat)
  | saveNewAddress (a : Address)
  | fetchAndStoreDerived (indexes : List Nat)
deriving DecidableEq

/-- `initializeCurrentNetworkAddresses` of the current provider: throws when
no mnemonic is unlocked; treats the stored metadata as empty when a
passphrase is used; when metadata exists it posts one derivation request for
exactly the stored indices (whose completion callback builds and registers
the addresses); when no metadata exists it does nothing further — no default
address is derived or saved. -/
def initializeCurrentNetworkAddresses (mnemonic : Option String)
    (isPassphraseUsed : Bool) (stored : List AddressMetadata) :
    Except String (List InitEffect) :=
  if !(jsTruthyStr mnemonic) then
    Except.error "Could not initialize addresses, mnemonic not found"
  else
    let addressesMetadata := if isPassphraseUsed then [] else stored
    if addressesMetadata.length > 0 then
      Except.ok [InitEffect.deriveFromIndexes (addressesMetadata.map (fun m => m.index))]
    else
      Except.ok []

/-- The wallet object of the legacy provider (`wallet.address`,
`wallet.publicKey`, `wallet.privateKey`, `wallet.seed`). -/
structure WalletInfo where
  address : String
  publicKey : String
  privateKey : String
  seed : String
deriving DecidableEq

/-- `initializeCurrentNetworkAddresses` of the legacy provider: returns
silently without an account name or wallet; with no stored metadata it saves
a single default address built from the wallet keys at index 0 with the
`isMain` flag set; with stored metadata it re-derives an address per stored
index (derivation itself is the external `deriveNewAddressData`) and fetches
their data. -/
def initializeCurrentNetworkAddressesLegacy (currentAccountName : Option String)
    (wallet : Option WalletInfo) (stored : List AddressMetadata) : List InitEffect :=
  match wallet with
  | none => []
  | some w =>
    if !(jsTruthyStr currentAccountName) then []
    else if stored.length = 0 then
      [InitEffect.saveNewAddress
        (Address.make w.address w.publicKey w.privateKey 0
          { isMain := true, label := none, color := none })]
    else
      [InitEffect.fetchAndStoreDerived (stored.map (fun m => m.index))]

/-! ## The polling loop -/

/-- `addressesOfCurrentNetwork`: the registry values whose network stamp is
the current network. -/
def addressesOfCurrentNetwork (addrs : List Address) (net : NetworkName) : List Address :=
  addrs.filter (fun a => decide (a.network = some net))

/-- `addressesWithPendingSentTxs`: current-network addresses with at least
one pending transaction on the current network. -/
def addressesWithPendingSentTxs (addrs : List Address) (net : NetworkName) : List Address :=
  (addressesOfCurrentNetwork addrs net).filter
    (fun a => (a.transactions.pending.filter (fun p => decide (p.network = net))).length > 0)

/-- `addressesWithPendingReceivingTxs`: current-network addresses that are
the destination of a pending transaction of some address with pending sent
transactions. -/
def addressesWithPendingReceivingTxs (addrs : List Address) (net : NetworkName) : List Address :=
  (addressesOfCurrentNetwork addrs net).filter
    (fun a =>
      (addressesWithPendingSentTxs addrs net).any
        (fun w => w.transactions.pending.any (fun p => p.toAddress == a.hash)))

/-- `addressesToRefresh`: the set the polling interval re-fetches
(`[...addressesWithPendingSentTxs, ...addressesWithPendingReceivingTxs]`). -/
def addressesToRefresh (addrs : List Address) (net : NetworkName) : List Address :=
  addressesWithPendingSentTxs addrs net ++ addressesWithPendingReceivingTxs addrs net

/-- The timer installed by the polling effect: it holds the captured
`addressesToRefresh` list while active, and is cleared either by the tick
that finds the list empty or by the effect teardown. -/
inductive PollTimer
  | active (toRefresh : List Address)
  | cleared

/-- One interval tick: with a non-empty captured list it performs a fetch
(`fetchAndStoreAddressesData(addressesToRefresh, true)`) and stays active;
with an empty list it calls `clearInterval`; a cleared timer does nothing.
The returned flag records whether a fetch call was performed. -/
def pollTick : PollTimer → PollTimer × Bool
  | .active toRefresh =>
    if toRefresh.length > 0 then (.active toRefresh, true) else (.cleared, false)
  | .cleared => (.cleared, false)

/-- The number of fetch calls performed by the first `n` ticks of a timer. -/
def fetchesInTicks (t : PollTimer) : Nat → Nat
  | 0 => 0
  | n + 1 => (if (pollTick t).2 then 1 else 0) + fetchesInTicks (pollTick t).1 n

/-! ## Concrete example values used by counterexamples and witnesses -/

/-- A pending outgoing transfer of amount 30, not yet confirmed. -/
def pendingTransfer30 : PendingTx :=
  { txId := "tx1", fromAddress := "addr1", toAddress := "addr2", timestamp := 0,
    type := TransactionType.transfer, network := NetworkName.mainnet, amount := some 30 }

/-- An address with available balance 100, one unconfirmed pending transfer
of amount 30 and an empty confirmed list. -/
def addressWithPendingTransfer : Address :=
  { Address.make "addr1" "pub1" "priv1" 0 ⟨false, none, none⟩ with
    availableBalance := 100
    transactions := { confirmed := [], pending := [pendingTransfer30], loadedPage := 0 } }

/-- A pending sweep transaction with no known amount. -/
def pendingSweepTx : PendingTx :=
  { txId := "tx2", fromAddress := "addr1", toAddress := "addr1", timestamp := 0,
    type := TransactionType.sweep, network := NetworkName.mainnet, amount := none }

/-- An address with available balance 100 and one unconfirmed pending sweep. -/
def addressWithPendingSweep : Address :=
  { Address.make "addr1" "pub1" "priv1" 0 ⟨false, none, none⟩ with
    availableBalance := 100
    transactions := { confirmed := [], pending := [pendingSweepTx], loadedPage := 0 } }

/-- A pending transfer with no amount field. -/
def pendingTransferNoAmount : PendingTx :=
  { txId := "tx3", fromAddress := "addr1", toAddress := "addr2", timestamp := 0,
    type := TransactionType.transfer, network := NetworkName.mainnet, amount := none }

/-- An address with balance 100 and one pending transfer lacking an amount. -/
def addressWithAmountlessTransfer : Address :=
  { Address.make "addr1" "pub1" "priv1" 0 ⟨false, none, none⟩ with
    availableBalance := 100
    transactions := { confirmed := [], pending := [pendingTransferNoAmount], loadedPage := 0 } }

/-- A plain address with no transactions at all. -/
def quietAddress : Address :=
  { Address.make "addr9" "pub9" "priv9" 3 ⟨false, none, none⟩ with
    availableBalance := 50
    network := some NetworkName.mainnet }

/-- The empty registry state. -/
def emptyAddressesState : AddressesStateMap := fun _ => none

/-! ## Helper lemmas -/

/-- Filtering the pending list against an unchanged confirmed list is stable:
the pending list of an already-reconciled address passes the confirmed-match
filter unchanged. -/
lemma newPendingTransactions_stable (a : Address) :
    a.updatePendingTransactions.newPendingTransactions
      = a.updatePendingTransactions.transactions.pending := by
  have h1 : a.updatePendingTransactions.transactions.confirmed = a.transactions.confirmed := rfl
  have h2 : a.updatePendingTransactions.transactions.pending = a.newPendingTransactions := rfl
  unfold Address.newPendingTransactions
  rw [h1, h2]
  unfold Address.newPendingTransactions
  rw [List.filter_filter]
  simp only [Bool.and_self]

/-- The reduce of the source (`tx.amount ? acc + BigInt(tx.amount) : acc`)
computes the plain sum of the known amounts: a zero amount is skipped by JS
truthiness but contributes zero anyway. -/
lemma foldl_amount_eq_sum (l : List PendingTx) :
    l.foldl
      (fun acc tx =>
        match tx.amount with
        | some v => if v = 0 then acc else acc + v
        | none => acc)
      0 = sumPendingAmounts l := by
  unfold sumPendingAmounts
  congr 1
  funext acc tx
  cases h : tx.amount with
  | none => simp
  | some v =>
    by_cases hv : v = 0
    · simp [hv]
    · simp [hv]

/-- A fold that only ever returns its accumulator over amountless
transactions returns the initial value. -/
lemma foldl_amount_none (l : List PendingTx) (h : ∀ tx ∈ l, tx.amount = none) :
    l.foldl
      (fun acc tx =>
        match tx.amount with
        | some v => if v = 0 then acc else acc + v
        | none => acc)
      0 = 0 := by
  induction l with
  | nil => rfl
  | cons tx rest ih =>
    rw [List.foldl_cons, h tx (List.mem_cons_self tx rest)]
    exact ih (fun t ht => h t (List.mem_cons_of_mem tx ht))

/-- A cleared polling timer performs no fetches. -/
lemma fetchesInTicks_cleared : ∀ n, fetchesInTicks PollTimer.cleared n = 0 := by
  intro n
  induction n with
  | zero => rfl
  | succ m ih => simp [fetchesInTicks, pollTick, ih]

/-- If a list splits as `l1 ++ c :: t1` and `l2 ++ c :: t2` with the
separator `c` absent from both prefixes, the prefixes agree. -/
lemma sep_append_inj {c : Char} :
    ∀ (l1 l2 t1 t2 : List Char), c ∉ l1 → c ∉ l2 →
      l1 ++ c :: t1 = l2 ++ c :: t2 → l1 = l2 := by
  intro l1
  induction l1 with
  | nil =>
    intro l2 t1 t2 h1 h2 he
    cases l2 with
    | nil => rfl
    | cons b l2 =>
      rw [List.nil_append, List.cons_append, List.cons.injEq] at he
      exact absurd (he.1 ▸ List.mem_cons_self b l2) h2
  | cons x l1 ih =>
    intro l2 t1 t2 h1 h2 he
    cases l2 with
    | nil =>
      rw [List.nil_append, List.cons_append, List.cons.injEq] at he
      exact absurd (he.1 ▸ List.mem_cons_self x l1) h1
    | cons y l2 =>
      rw [List.cons_append, List.cons_append, List.cons.injEq] at he
      rw [he.1,
        ih l2 t1 t2 (fun hm => h1 (List.mem_cons_of_mem x hm))
          (fun hm => h2 (List.mem_cons_of_mem y hm)) he.2]

/-- No network name rendering contains the dash separator. -/
lemma dash_not_mem_toStr (n : NetworkName) : ('-' : Char) ∉ (NetworkName.toStr n).data := by
  cases n <;> decide

/-- The character data of the registry map key. -/
lemma constructMapKey_data (h : String) (n : NetworkName) :
    (constructMapKey h n).data = h.data ++ '-' :: (NetworkName.toStr n).data := by
  show (h ++ "-" ++ NetworkName.toStr n).data = _
  rw [String.data_append, String.data_append]
  have hd : ("-" : String).data = ['-'] := by decide
  rw [hd]
  simp

/-- Distinct rendered network names have distinct character data. -/
lemma toStr_data_inj {n1 n2 : NetworkName}
    (h : (NetworkName.toStr n1).data = (NetworkName.toStr n2).data) : n1 = n2 := by
  revert h
  cases n1 <;> cases n2 <;> decide

/-- Equal map keys force equal networks: the network is the dash-free suffix
after the last dash of the key. -/
lemma constructMapKey_net_inj {h1 h2 : String} {n1 n2 : NetworkName}
    (e : constructMapKey h1 n1 = constructMapKey h2 n2) : n1 = n2 := by
  have ed := congrArg String.data e
  rw [constructMapKey_data, constructMapKey_data] at ed
  have er := congrArg List.reverse ed
  simp only [List.reverse_append, List.reverse_cons, List.append_assoc,
    List.singleton_append] at er
  have hr := sep_append_inj (NetworkName.toStr n1).data.reverse
    (NetworkName.toStr n2).data.reverse h1.data.reverse h2.data.reverse
    (fun hm => dash_not_mem_toStr n1 (List.mem_reverse.mp hm))
    (fun hm => dash_not_mem_toStr n2 (List.mem_reverse.mp hm)) er
  exact toStr_data_inj (List.reverse_injective hr)

/-- Equal map keys under one network force equal hashes. -/
lemma constructMapKey_hash_inj {h1 h2 : String} {n : NetworkName}
    (e : constructMapKey h1 n = constructMapKey h2 n) : h1 = h2 := by
  have ed := congrArg String.data e
  rw [constructMapKey_data, constructMapKey_data] at ed
  exact String.ext (List.append_cancel_right ed)

/-- Keys not touched by the insertion loop keep their previous value. -/
lemma foldl_setKey_frame (net : NetworkName) :
    ∀ (as : List Address) (s : AddressesStateMap) (k : String),
      (∀ a ∈ as, k ≠ constructMapKey a.hash net) →
      as.foldl (setKey net) s k = s k := by
  intro as
  induction as with
  | nil => intro s k _; rfl
  | cons a rest ih =>
    intro s k h
    rw [List.foldl_cons, ih (setKey net s a) k (fun b hb => h b (List.mem_cons_of_mem a hb))]
    simp [setKey, h a (List.mem_cons_self a rest)]

/-- A key belonging to some inserted address ends up holding one of the
inserted addresses with that key, stamped with the network (the last such
address in JS `Map.set` order). -/
lemma foldl_setKey_last (net : NetworkName) :
    ∀ (as : List Address) (s : AddressesStateMap) (k : String),
      (∃ a ∈ as, k = constructMapKey a.hash net) →
      ∃ b ∈ as, k = constructMapKey b.hash net ∧
        as.foldl (setKey net) s k = some (stampNetwork b net) := by
  intro as
  induction as with
  | nil =>
    rintro s k ⟨a, ha, _⟩
    exact absurd ha (List.not_mem_nil a)
  | cons a rest ih =>
    intro s k hex
    rw [List.foldl_cons]
    by_cases hr : ∃ b ∈ rest, k = constructMapKey b.hash net
    · obtain ⟨b, hb, hkb, hres⟩ := ih (setKey net s a) k hr
      exact ⟨b, List.mem_cons_of_mem a hb, hkb, hres⟩
    · have hka : k = constructMapKey a.hash net := by
        obtain ⟨c, hc, hkc⟩ := hex
        rcases List.mem_cons.mp hc with h | h
        · exact h ▸ hkc
        · exact absurd ⟨c, h, hkc⟩ hr
      push_neg at hr
      rw [foldl_setKey_frame net rest (setKey net s a) k hr]
      refine ⟨a, List.mem_cons_self a rest, hka, ?_⟩
      simp [setKey, hka]

/-! ## Claim theorems -/

/-- C1 counterexample: with balance 100, one unconfirmed pending transfer of
amount 30 and an unchanged (empty) confirmed list, one run of
`updatePendingTransactions` leaves balance 70, a second run leaves 40 — the
deduction is applied again, so running twice does not equal running once. -/
theorem updatePendingTransactions_not_idempotent :
    ¬(addressWithPendingTransfer.updatePendingTransactions.updatePendingTransactions.transactions.pending
          = addressWithPendingTransfer.updatePendingTransactions.transactions.pending ∧
      addressWithPendingTransfer.updatePendingTransactions.updatePendingTransactions.availableBalance
          = addressWithPendingTransfer.updatePendingTransactions.availableBalance) := by
  decide

/-- C1 (amended): running `updatePendingTransactions` twice with unchanged
confirmed list yields the same pending list as running it once, but the
available balance is the same only when the remaining pending transactions
cause a zero deduction (in particular when every pending transaction was
confirmed); otherwise the second run subtracts the pending deduction again. -/
theorem updatePendingTransactions_twice (a : Address) :
    a.updatePendingTransactions.updatePendingTransactions.transactions.pending
        = a.updatePendingTransactions.transactions.pending ∧
    (a.updatePendingTransactions.updatePendingTransactions.availableBalance
          = a.updatePendingTransactions.availableBalance ↔
      pendingDeduction a.updatePendingTransactions.transactions.pending
          a.updatePendingTransactions.availableBalance = 0) := by
  have hp : a.updatePendingTransactions.updatePendingTransactions.transactions.pending
      = a.updatePendingTransactions.newPendingTransactions := rfl
  have hb : a.updatePendingTransactions.updatePendingTransactions.availableBalance
      = a.updatePendingTransactions.availableBalance -
          pendingDeduction a.updatePendingTransactions.newPendingTransactions
            a.updatePendingTransactions.availableBalance := rfl
  constructor
  · rw [hp, newPendingTransactions_stable]
  · rw [hb, newPendingTransactions_stable]
    exact sub_eq_self

/-- C2: after confirmed-matching, a remaining pending sweep or consolidation
makes `updatePendingTransactions` zero the available balance regardless of
any amounts; if the remaining pending transactions are all transfers with
known amounts, the balance becomes the old balance minus their sum. -/
theorem updatePendingTransactions_balance_rule (a : Address) :
    ((∃ tx ∈ a.newPendingTransactions,
        tx.type = TransactionType.sweep ∨ tx.type = TransactionType.consolidation) →
      a.updatePendingTransactions.availableBalance = 0) ∧
    ((∀ tx ∈ a.newPendingTransactions,
        tx.type = TransactionType.transfer ∧ tx.amount.isSome) →
      a.updatePendingTransactions.availableBalance
        = a.availableBalance - sumPendingAmounts a.newPendingTransactions) := by
  have hb : a.updatePendingTransactions.availableBalance
      = a.availableBalance - pendingDeduction a.newPendingTransactions a.availableBalance := rfl
  constructor
  · rintro ⟨tx, htx, hty⟩
    have hfind : (a.newPendingTransactions.find? (fun tx =>
        decide (tx.type = TransactionType.sweep) ||
          decide (tx.type = TransactionType.consolidation))).isSome := by
      rw [List.find?_isSome]
      exact ⟨tx, htx, by simpa using hty⟩
    rw [hb]
    unfold pendingDeduction
    rw [if_pos hfind]
    exact sub_self _
  · intro h
    have hnone : a.newPendingTransactions.find? (fun tx =>
        decide (tx.type = TransactionType.sweep) ||
          decide (tx.type = TransactionType.consolidation)) = none := by
      rw [List.find?_eq_none]
      intro tx htx
      have hty := (h tx htx).1
      simp [hty]
    rw [hb]
    unfold pendingDeduction
    rw [hnone]
    simp only [Option.isSome_none, Bool.false_eq_true, if_false]
    rw [foldl_amount_eq_sum]

/-- C2 witness: a pending sweep zeroes the balance of
`addressWithPendingSweep`; the pending transfer of known amount 30 turns the
balance 100 of `addressWithPendingTransfer` into 100 − 30. -/
theorem updatePendingTransactions_balance_rule_witness :
    addressWithPendingSweep.updatePendingTransactions.availableBalance = 0 ∧
    addressWithPendingTransfer.updatePendingTransactions.availableBalance
        = addressWithPendingTransfer.availableBalance -
            sumPendingAmounts addressWithPendingTransfer.newPendingTransactions :=
  ⟨(updatePendingTransactions_balance_rule addressWithPendingSweep).1 (by decide),
   (updatePendingTransactions_balance_rule addressWithPendingTransfer).2 (by decide)⟩

/-- C3: `updatePendingTransactions` keeps exactly the pending transactions
whose id matches no confirmed hash, and keeps them in their original order
(the new pending list is a sublist of the old one). -/
theorem updatePendingTransactions_removes_confirmed (a : Address) :
    (∀ p, p ∈ a.updatePendingTransactions.transactions.pending ↔
        p ∈ a.transactions.pending ∧ ∀ c ∈ a.transactions.confirmed, c.hash ≠ p.txId) ∧
    a.updatePendingTransactions.transactions.pending.Sublist a.transactions.pending := by
  have hp : a.updatePendingTransactions.transactions.pending
      = a.newPendingTransactions := rfl
  constructor
  · intro p
    rw [hp]
    unfold Address.newPendingTransactions
    simp [List.mem_filter, List.any_eq_true]
  · rw [hp]
    exact List.filter_sublist _

/-- C9: when the remaining pending transactions contain no sweep or
consolidation and none of them carries an amount, the deduction is zero and
the available balance is left unchanged. -/
theorem updatePendingTransactions_amountless (a : Address)
    (h1 : ∀ tx ∈ a.newPendingTransactions,
      tx.type ≠ TransactionType.sweep ∧ tx.type ≠ TransactionType.consolidation)
    (h2 : ∀ tx ∈ a.newPendingTransactions, tx.amount = none) :
    a.updatePendingTransactions.availableBalance = a.availableBalance := by
  have hb : a.updatePendingTransactions.availableBalance
      = a.availableBalance - pendingDeduction a.newPendingTransactions a.availableBalance := rfl
  have hnone : a.newPendingTransactions.find? (fun tx =>
      decide (tx.type = TransactionType.sweep) ||
        decide (tx.type = TransactionType.consolidation)) = none := by
    rw [List.find?_eq_none]
    intro tx htx
    have := h1 tx htx
    simp [this.1, this.2]
  rw [hb]
  unfold pendingDeduction
  rw [hnone]
  simp only [Option.isSome_none, Bool.false_eq_true, if_false]
  rw [foldl_amount_none a.newPendingTransactions h2]
  exact sub_zero _

/-- C9 witness: a single pending transfer with no amount leaves the balance
100 of `addressWithAmountlessTransfer` unchanged. -/
theorem updatePendingTransactions_amountless_witness :
    addressWithAmountlessTransfer.updatePendingTransactions.availableBalance
      = addressWithAmountlessTransfer.availableBalance :=
  updatePendingTransactions_amountless addressWithAmountlessTransfer (by decide) (by decide)

/-- C4: the mnemonic guard of `saveNewAddress` reads the shadowed callback
parameter (`const _mnemonic = mnemonic || mnemonic`), not the unlocked wallet
secret.  First conjunct: with the wallet secret unlocked in provider state
but the optional parameter omitted — exactly how `generateOneAddressPerGroup`
calls it — `saveNewAddress` throws even though a secret is unlocked.  Second
conjunct: with no unlocked secret but a parameter passed, it succeeds and
performs the store/upsert/fetch effects, so the throw happens exactly when
the parameter, not the unlocked secret, is missing. -/
theorem saveNewAddress_mnemonic_guard_bug :
    saveNewAddress (some "unlocked secret") false quietAddress none
        = Except.error "Could not save new address, mnemonic not found" ∧
    saveNewAddress none false quietAddress (some "passed secret")
        = Except.ok
            [SaveEffect.storeMetadata quietAddress.index quietAddress.settings,
             SaveEffect.setAddress quietAddress.hash,
             SaveEffect.fetchAndStoreAddressesData [quietAddress.hash],
             SaveEffect.fetchPendingTxs [quietAddress.hash]] := by
  constructor <;> rfl

/-- C5 counterexample: in the current provider, initializing with an
unlocked mnemonic and an empty Address Metadata Store performs no effect at
all — no default address is derived or saved, contradicting the claim that
exactly one default address (index 0, isMain) is derived and saved. -/
theorem initialize_no_metadata_derives_nothing :
    initializeCurrentNetworkAddresses (some "wallet secret") false []
      = Except.ok [] := by
  rfl

/-- C5 (amended): only the legacy provider saves a single default address
(derived from the wallet keys at index 0 with the isMain flag set) when the
Address Metadata Store holds no metadata for the account; the current
provider derives addresses only from stored metadata and derives nothing
when none exists. -/
theorem initialize_default_address (name m : String) (w : WalletInfo)
    (hn : name ≠ "") (hm : m ≠ "") :
    initializeCurrentNetworkAddressesLegacy (some name) (some w) []
        = [InitEffect.saveNewAddress
            (Address.make w.address w.publicKey w.privateKey 0
              { isMain := true, label := none, color := none })] ∧
    initializeCurrentNetworkAddresses (some m) false [] = Except.ok [] := by
  constructor
  · simp [initializeCurrentNetworkAddressesLegacy, jsTruthyStr, hn]
  · simp [initializeCurrentNetworkAddresses, jsTruthyStr, hm]

/-- C5 witness: concrete account name, mnemonic and wallet keys. -/
theorem initialize_default_address_witness :
    initializeCurrentNetworkAddressesLegacy (some "Account 1")
        (some { address := "walletAddr", publicKey := "walletPub",
                privateKey := "walletPriv", seed := "walletSeed" }) []
        = [InitEffect.saveNewAddress
            (Address.make "walletAddr" "walletPub" "walletPriv" 0
              { isMain := true, label := none, color := none })] ∧
    initializeCurrentNetworkAddresses (some "wallet secret") false [] = Except.ok [] :=
  initialize_default_address "Account 1" "wallet secret"
    { address := "walletAddr", publicKey := "walletPub",
      privateKey := "walletPriv", seed := "walletSeed" }
    (by decide) (by decide)

/-- C6: storing addresses while network `n1` is active never affects a
`getAddress` lookup performed while a different network `n2` is active: the
map key pairs the hash with the current network name, and the dash-free
network renderings make the pairing injective in the network component. -/
theorem getAddress_network_isolation (n1 n2 : NetworkName) (h : n1 ≠ n2)
    (as : List Address) (s : AddressesStateMap) (addressHash : String) :
    getAddress n2 (updateAddressesState n1 as s) addressHash
      = getAddress n2 s addressHash := by
  unfold getAddress updateAddressesState
  split
  · rfl
  · exact foldl_setKey_frame n1 as s _
      (fun a _ he => h (constructMapKey_net_inj he).symm)

/-- C6 witness: an address stored under testnet is invisible to a mainnet
lookup of the same hash on the empty registry. -/
theorem getAddress_network_isolation_witness :
    getAddress NetworkName.mainnet
        (updateAddressesState NetworkName.testnet [quietAddress] emptyAddressesState)
        "addr9"
      = getAddress NetworkName.mainnet emptyAddressesState "addr9" :=
  getAddress_network_isolation NetworkName.testnet NetworkName.mainnet (by decide)
    [quietAddress] emptyAddressesState "addr9"

/-- C7: when no current-network address has a pending transaction on the
current network, the refresh set (senders plus destinations) computed by the
polling effect is empty, and a timer seeded with it performs zero fetch
calls in any number of ticks: the first tick clears the interval. -/
theorem polling_stops (addrs : List Address) (net : NetworkName)
    (h : ∀ a ∈ addrs, a.network = some net →
      ∀ p ∈ a.transactions.pending, p.network ≠ net) :
    addressesToRefresh addrs net = [] ∧
    ∀ n, fetchesInTicks (PollTimer.active (addressesToRefresh addrs net)) n = 0 := by
  have hsent : addressesWithPendingSentTxs addrs net = [] := by
    unfold addressesWithPendingSentTxs
    rw [List.filter_eq_nil_iff]
    intro a ha
    rw [addressesOfCurrentNetwork, List.mem_filter] at ha
    have hnet : a.network = some net := by simpa using ha.2
    have hpend : a.transactions.pending.filter (fun p => decide (p.network = net)) = [] := by
      rw [List.filter_eq_nil_iff]
      intro p hp
      simpa using h a ha.1 hnet p hp
    simp [hpend]
  have hrecv : addressesWithPendingReceivingTxs addrs net = [] := by
    unfold addressesWithPendingReceivingTxs
    rw [hsent]
    simp [List.filter_eq_nil_iff]
  have hall : addressesToRefresh addrs net = [] := by
    unfold addressesToRefresh
    rw [hsent, hrecv]
    rfl
  refine ⟨hall, fun n => ?_⟩
  rw [hall]
  cases n with
  | zero => rfl
  | succ m =>
    have hpt : pollTick (PollTimer.active []) = (PollTimer.cleared, false) := rfl
    show (if (pollTick (PollTimer.active [])).2 then 1 else 0)
        + fetchesInTicks (pollTick (PollTimer.active [])).1 m = 0
    rw [hpt]
    simp [fetchesInTicks_cleared]

/-- C7 witness: one quiet mainnet address with no pending transactions; five
ticks perform no fetch. -/
theorem polling_stops_witness :
    addressesToRefresh [quietAddress] NetworkName.mainnet = [] ∧
    fetchesInTicks
        (PollTimer.active (addressesToRefresh [quietAddress] NetworkName.mainnet)) 5 = 0 :=
  ⟨(polling_stops [quietAddress] NetworkName.mainnet (by decide)).1,
   (polling_stops [quietAddress] NetworkName.mainnet (by decide)).2 5⟩

/-- C8 counterexample: with a client set but the network offline,
`fetchAddressTransactionsNextPage` returns without any API call but also
without any offline notification, contradicting the claim that every
data-fetching operation surfaces a single offline notification. -/
theorem nextPage_offline_no_notification :
    (fetchAddressTransactionsNextPageCalls true NetworkStatus.offline quietAddress).2 ≠ 1 := by
  decide

/-- C8 (amended): whenever the client is unset or the network is offline,
none of the three data-fetching operations performs a per-address API call;
`fetchAndStoreAddressesData` and `fetchPendingTxs` each surface exactly one
offline notification, while `fetchAddressTransactionsNextPage` returns
silently with none. -/
theorem offline_short_circuit (clientSet : Bool) (status : NetworkStatus)
    (addresses currentNetworkAddresses : List Address) (address : Address)
    (h : clientSet = false ∨ status = NetworkStatus.offline) :
    fetchAndStoreAddressesDataCalls clientSet status addresses currentNetworkAddresses
        = ([], 1) ∧
    fetchPendingTxsCalls clientSet status addresses currentNetworkAddresses = ([], 1) ∧
    fetchAddressTransactionsNextPageCalls clientSet status address = ([], 0) := by
  have hg : clientUnavailable clientSet status = true := by
    rcases h with h | h <;> simp [clientUnavailable, h]
  refine ⟨?_, ?_, ?_⟩ <;>
    simp [fetchAndStoreAddressesDataCalls, fetchPendingTxsCalls,
      fetchAddressTransactionsNextPageCalls, hg]

/-- C8 witness: with no client and the network online, all three operations
short-circuit as stated. -/
theorem offline_short_circuit_witness :
    fetchAndStoreAddressesDataCalls false NetworkStatus.online [] [] = ([], 1) ∧
    fetchPendingTxsCalls false NetworkStatus.online [] [] = ([], 1) ∧
    fetchAddressTransactionsNextPageCalls false NetworkStatus.online quietAddress = ([], 0) :=
  offline_short_circuit false NetworkStatus.online [] [] quietAddress (Or.inl rfl)

/-- C10: `updateAddressesState` with an empty list is the identity on the
registry state (no state update is dispatched); with a non-empty list it
changes only the entries keyed by the given hashes under the current
network, every other key keeping its previous value; and each given hash's
key ends up holding one of the given addresses with that hash, its network
field stamped with the current network. -/
theorem updateAddressesState_frame (net : NetworkName) (as : List Address)
    (s : AddressesStateMap) :
    updateAddressesState net [] s = s ∧
    (∀ k, (∀ a ∈ as, k ≠ constructMapKey a.hash net) →
      updateAddressesState net as s k = s k) ∧
    (∀ a ∈ as, ∃ b ∈ as, b.hash = a.hash ∧
      updateAddressesState net as s (constructMapKey a.hash net)
        = some (stampNetwork b net)) := by
  refine ⟨rfl, ?_, ?_⟩
  · intro k hk
    unfold updateAddressesState
    split
    · rfl
    · exact foldl_setKey_frame net as s k hk
  · intro a ha
    have hne : ¬as.length = 0 := by
      cases as with
      | nil => exact absurd ha (List.not_mem_nil a)
      | cons x xs => simp
    unfold updateAddressesState
    rw [if_neg hne]
    obtain ⟨b, hb, hkb, hres⟩ := foldl_setKey_last net as s _ ⟨a, ha, rfl⟩
    exact ⟨b, hb, (constructMapKey_hash_inj hkb).symm, hres⟩

/-- C10 witness: on the empty registry, inserting `quietAddress` under
mainnet leaves an unrelated key untouched and stores the stamped address
under its own key; the empty insert is the identity. -/
theorem updateAddressesState_frame_witness :
    updateAddressesState NetworkName.mainnet [] emptyAddressesState = emptyAddressesState ∧
    updateAddressesState NetworkName.mainnet [quietAddress] emptyAddressesState "other-key"
        = emptyAddressesState "other-key" ∧
    ∃ b ∈ [quietAddress], b.hash = quietAddress.hash ∧
      updateAddressesState NetworkName.mainnet [quietAddress] emptyAddressesState
          (constructMapKey quietAddress.hash NetworkName.mainnet)
        = some (stampNetwork b NetworkName.mainnet) :=
  ⟨(updateAddressesState_frame NetworkName.mainnet [quietAddress] emptyAddressesState).1,
   (updateAddressesState_frame NetworkName.mainnet [quietAddress] emptyAddressesState).2.1
      "other-key" (by decide),
   (updateAddressesState_frame NetworkName.mainnet [quietAddress] emptyAddressesState).2.2
      quietAddress (List.mem_cons_self quietAddress [])⟩

end DesktopWallet
